import Mathlib

/-!
Shallow embedding of `src/main.py` (Python-Mass-File-Maker), a single-file
disk-exhaustion utility: a growth loop that creates batches of random-content
files, doubling both the file count and the per-file size after each batch.

Python integers are arbitrary precision, so they are modelled as `Nat`/`Int`.
The float arithmetic in `format_size` (repeated division by 1024.0) is modelled
over `ℚ`: division by the power of two 1024 is exact in IEEE binary floating
point at the magnitudes the claims exercise, so the rational model agrees with
the float computation there.
-/

namespace MassFileMaker

/-- Configuration constant `INITIAL_FILES = 5` from src/main.py. -/
def INITIAL_FILES : Nat := 5

/-- Configuration constant `INITIAL_FILE_SIZE = 1024` from src/main.py. -/
def INITIAL_FILE_SIZE : Nat := 1024

/-! ## File Writer (`create_file`)

Python source:
```
def create_file(filepath, size_bytes):
    with open(filepath, 'wb') as f:
        chunk_size = min(size_bytes, 1024 * 1024)  # 1 MB chunks
        remaining = size_bytes
        while remaining > 0:
            write_size = min(chunk_size, remaining)
            f.write(os.urandom(write_size))
            remaining -= write_size
```
The observable effect we model is the list of chunk sizes written (the file's
byte length is their sum, since `open(..., 'wb')` truncates the file first).
The while loop is embedded with explicit fuel: each executed iteration writes
`write_size ≥ 1` bytes (whenever the loop is entered, `remaining > 0` and, for
any call coming from `create_file`, `chunk_size = min(size_bytes, 2^20) ≥ 1`),
so `size_bytes.toNat` iterations always suffice; fuel-stability is proved
below, which is exactly the loop's termination.
-/

/-- One step of the chunk-writing while loop of `create_file`, with fuel.
`chunk` is the loop-invariant `chunk_size`, `remaining` the mutable counter. -/
def write_chunks_fuel : Nat → Int → Int → List Int
  | 0, _, _ => []
  | fuel + 1, chunk, remaining =>
    if 0 < remaining then
      min chunk remaining :: write_chunks_fuel fuel chunk (remaining - min chunk remaining)
    else []

/-- The chunk sizes written by `create_file(filepath, size_bytes)`:
`chunk_size = min(size_bytes, 1024*1024)`, loop until `remaining ≤ 0`. -/
def create_file (size_bytes : Int) : List Int :=
  write_chunks_fuel size_bytes.toNat (min size_bytes (1024 * 1024)) size_bytes

/-! ## Decimal digit helpers

These model Python's decimal formatting (`f"{batch:04d}"`, `f"{i:06d}"`,
`f"{x:.2f}"`): the decimal digit list of a natural number, zero-padding on the
left, and the rendering of digits as characters. -/

/-- Little-endian decimal digits of `n`, with structural fuel (`n` iterations
always suffice since the argument at least halves each step). -/
def digitsRevFuel : Nat → Nat → List Nat
  | 0, _ => []
  | fuel + 1, n => if n = 0 then [] else n % 10 :: digitsRevFuel fuel (n / 10)

/-- Little-endian decimal digits of `n` (empty for 0). -/
def digitsRev (n : Nat) : List Nat := digitsRevFuel n n

/-- Big-endian decimal digit list of `n`, as Python's `repr` ("0" for 0). -/
def natDecimalBE (n : Nat) : List Nat :=
  if n = 0 then [0] else (digitsRev n).reverse

/-- Zero-pad a digit list on the left to width `w` (Python `%0wd` semantics). -/
def padLeft (w : Nat) (l : List Nat) : List Nat :=
  List.replicate (w - l.length) 0 ++ l

/-- Value of a big-endian digit list (decimal parsing). -/
def valBE (l : List Nat) : Nat := l.foldl (fun a d => a * 10 + d) 0

/-- Render one decimal digit as a character. -/
def decChar (d : Nat) : Char := Char.ofNat (48 + d)

/-- Numeric value of a decimal digit character. -/
def charVal (c : Char) : Nat := c.toNat - 48

/-- Character list of `n` rendered in decimal, zero-padded to width `w`. -/
def padNumChars (w n : Nat) : List Char :=
  (padLeft w (natDecimalBE n)).map decChar

/-- String of `n` rendered in decimal, zero-padded to width `w`:
Python's `f"{n:0wd}"` for a non-negative integer. -/
def padNumStr (w n : Nat) : String := String.mk (padNumChars w n)

/-! ## Progress Reporter (`format_size`)

Python source:
```
def format_size(bytes_size):
    for unit in ['B', 'KB', 'MB', 'GB', 'TB']:
        if bytes_size < 1024.0:
            return f"{bytes_size:.2f} {unit}"
        bytes_size /= 1024.0
    return f"{bytes_size:.2f} PB"
```
-/

/-- Python's `f"{x:.2f}"` for a non-negative value: round `x*100` to the
nearest integer and print with two digits after the decimal point.  (CPython
rounds the underlying binary float to nearest; the claims below only evaluate
it where `x*100` is an exact integer, so no tie-breaking is exercised.) -/
def fmt2 (x : ℚ) : String :=
  let c : Nat := (⌊x * 100 + 1 / 2⌋).toNat
  padNumStr 1 (c / 100) ++ "." ++ padNumStr 2 (c % 100)

/-- The `for unit in [...]` loop of `format_size`: return at the first unit
where the value is below 1024, otherwise divide by 1024 and continue; after
the list is exhausted, fall through to `PB`. -/
def format_size_go : ℚ → List String → String
  | bytes_size, [] => fmt2 bytes_size ++ " PB"
  | bytes_size, unit :: units =>
    if bytes_size < 1024 then fmt2 bytes_size ++ " " ++ unit
    else format_size_go (bytes_size / 1024) units

/-- `format_size` from src/main.py. -/
def format_size (bytes_size : ℚ) : String :=
  format_size_go bytes_size ["B", "KB", "MB", "GB", "TB"]

/-! ## File naming

Python source (inside the batch loop of `main`):
```
filename = f"batch_{batch:04d}_file_{i:06d}.dat"
```
-/

/-- Character list of the generated filename for `(batch, i)`. -/
def filenameChars (batch i : Nat) : List Char :=
  "batch_".toList ++ (padNumChars 4 batch ++ ("_file_".toList ++ (padNumChars 6 i ++ ".dat".toList)))

/-- The generated filename `f"batch_{batch:04d}_file_{i:06d}.dat"`. -/
def filename (batch i : Nat) : String := String.mk (filenameChars batch i)

/-! ## Run State and the growth loop

Python source (`main`), the loop-carried variables and one loop body:
```
num_files = INITIAL_FILES
file_size = INITIAL_FILE_SIZE
batch = 0
total_files = 0
while True:
    batch += 1
    for i in range(num_files):
        filename = f"batch_{batch:04d}_file_{i:06d}.dat"
        create_file(filepath, file_size)
    total_files += num_files
    total_size = total_files * file_size          # reported "Total size"
    num_files *= 2
    file_size *= 2
    time.sleep(DELAY_SECONDS)
```
`total_size` is recomputed inside each iteration, after `total_files` is
updated and before the doubling, and is what the completion line reports.
-/

/-- The in-memory Run State: the four loop-carried integer counters of `main`. -/
structure RunState where
  num_files : Nat
  file_size : Nat
  batch : Nat
  total_files : Nat
  deriving DecidableEq, Repr

/-- Run State before the first batch: `num_files = f`, `file_size = sz`,
`batch = 0`, `total_files = 0`. -/
def initState (f sz : Nat) : RunState :=
  { num_files := f, file_size := sz, batch := 0, total_files := 0 }

/-- One iteration of the `while True` loop body, in source order: increment
`batch`, write the batch's files, add `num_files` into `total_files`, compute
the reported `total_size = total_files * file_size`, then double `num_files`
and `file_size`.  Returns the successor state and the reported `total_size`. -/
def runBatch (s : RunState) : RunState × Nat :=
  let batch := s.batch + 1
  let total_files := s.total_files + s.num_files
  let total_size := total_files * s.file_size
  ({ num_files := s.num_files * 2, file_size := s.file_size * 2,
     batch := batch, total_files := total_files }, total_size)

/-- Run State after `n` completed batches, starting from `initState f sz`. -/
def runStates (f sz : Nat) : Nat → RunState
  | 0 => initState f sz
  | n + 1 => (runBatch (runStates f sz n)).1

/-- The `total_size` value printed on completion of batch `n` (for `n ≥ 1`). -/
def reportedTotalSize (f sz n : Nat) : Nat :=
  (runBatch (runStates f sz (n - 1))).2

/-- Bytes actually written during one batch executed from state `s`:
`num_files` files of `file_size` bytes each. -/
def writtenInBatch (s : RunState) : Nat := s.num_files * s.file_size

/-- Total bytes actually written on disk over the first `n` batches:
the sum over completed batches of `files_per_batch_i * bytes_per_file_i`. -/
def totalWritten (f sz : Nat) : Nat → Nat
  | 0 => 0
  | n + 1 => totalWritten f sz n + writtenInBatch (runStates f sz n)

/-- Sum of the per-batch planned file counts of batches `1..n`. -/
def sumFilesPerBatch (f sz : Nat) : Nat → Nat
  | 0 => 0
  | n + 1 => sumFilesPerBatch f sz n + (runStates f sz n).num_files

/-! ## Stop handling and process exit

Python source:
```
    except KeyboardInterrupt:
        print("\n" + "=" * 60)
        print("Stopped by user")
        print(f"Final stats: {total_files:,} files created")
        print("=" * 60)
    except Exception as e:
        print(f"\nError occurred: {e}")
        print(f"Completed {batch} batches with {total_files:,} files")

if __name__ == "__main__":
    main()
```
Both handlers fall off the end of `main`; there is no `sys.exit` anywhere, and
the module-level guard just calls `main()`, so the interpreter exits with
status 0 on both stop paths.

The printed statistics are modelled one data item per datum appearing in the
handler's output lines (banner lines of `=` carry no data and are omitted):
the interrupt handler's lines mention only `total_files`; the error handler's
lines mention the error message, `batch` and `total_files`.
-/

/-- Why the growth loop stopped: `KeyboardInterrupt` (user stop) or any other
`Exception` (unrecoverable error, e.g. a file-write failure). -/
inductive StopCause where
  | interrupted
  | ioError
  deriving DecidableEq, Repr

/-- One datum appearing in a final-statistics line. -/
inductive StatItem where
  | stoppedByUser
  | totalFilesCreated (n : Nat)
  | errorOccurred (msg : String)
  | batchesCompleted (n : Nat)
  deriving DecidableEq, Repr

/-- Whether a statistics item reports the number of batches completed. -/
def isBatchesCompleted : StatItem → Bool
  | .batchesCompleted _ => true
  | _ => false

/-- What the process does when the loop stops in state `s` with cause
`cause` (and error text `err` in the `Exception` case): the statistics items
printed by the matching handler, and the process exit status.  Both handlers
return normally from `main` and nothing calls `sys.exit`, so the exit status
is 0 in both cases. -/
def mainStop (cause : StopCause) (err : String) (s : RunState) : List StatItem × Nat :=
  match cause with
  | .interrupted => ([.stoppedByUser, .totalFilesCreated s.total_files], 0)
  | .ioError =>
      ([.errorOccurred err, .batchesCompleted s.batch, .totalFilesCreated s.total_files], 0)

/-! ## Helper lemmas -/

lemma write_chunks_fuel_nil {r : Int} (hr : r ≤ 0) :
    ∀ (fuel : Nat) (c : Int), write_chunks_fuel fuel c r = [] := by
  intro fuel c
  cases fuel with
  | zero => rfl
  | succ fuel => simp [write_chunks_fuel, not_lt.mpr hr]

lemma write_chunks_fuel_sum :
    ∀ (fuel : Nat) (c r : Int), 0 < c → r.toNat ≤ fuel →
      (write_chunks_fuel fuel c r).sum = max r 0 := by
  intro fuel
  induction fuel with
  | zero =>
    intro c r hc hr
    have h0 : r ≤ 0 := by omega
    simp [write_chunks_fuel]
    omega
  | succ fuel ih =>
    intro c r hc hr
    by_cases h : 0 < r
    · simp only [write_chunks_fuel, if_pos h, List.sum_cons]
      rw [ih c (r - min c r) hc (by omega)]
      omega
    · simp only [write_chunks_fuel, if_neg h, List.sum_nil]
      omega

lemma write_chunks_fuel_mem :
    ∀ (fuel : Nat) (c r w : Int), 0 < c → w ∈ write_chunks_fuel fuel c r →
      0 < w ∧ w ≤ c := by
  intro fuel
  induction fuel with
  | zero => intro c r w _ h; simp [write_chunks_fuel] at h
  | succ fuel ih =>
    intro c r w hc h
    by_cases hr : 0 < r
    · simp only [write_chunks_fuel, if_pos hr, List.mem_cons] at h
      rcases h with h | h
      · subst h; omega
      · exact ih c _ w hc h
    · simp [write_chunks_fuel, if_neg hr] at h

lemma write_chunks_fuel_succ :
    ∀ (fuel : Nat) (c r : Int), 0 < c → r.toNat ≤ fuel →
      write_chunks_fuel (fuel + 1) c r = write_chunks_fuel fuel c r := by
  intro fuel
  induction fuel with
  | zero =>
    intro c r hc hr
    have h0 : r ≤ 0 := by omega
    rw [write_chunks_fuel_nil h0, write_chunks_fuel_nil h0]
  | succ fuel ih =>
    intro c r hc hr
    by_cases hr0 : 0 < r
    · simp only [write_chunks_fuel, if_pos hr0]
      congr 1
      exact ih c (r - min c r) hc (by omega)
    · simp only [write_chunks_fuel, if_neg hr0]

lemma write_chunks_fuel_stable :
    ∀ (d fuel : Nat) (c r : Int), 0 < c → r.toNat ≤ fuel →
      write_chunks_fuel (fuel + d) c r = write_chunks_fuel fuel c r := by
  intro d
  induction d with
  | zero => intro fuel c r _ _; rfl
  | succ d ih =>
    intro fuel c r hc hr
    have h1 : fuel + (d + 1) = (fuel + d) + 1 := rfl
    rw [h1, write_chunks_fuel_succ (fuel + d) c r hc (by omega), ih fuel c r hc hr]

lemma create_file_eq (n : Nat) :
    create_file (n : Int) = write_chunks_fuel n (min (n : Int) (1024 * 1024)) (n : Int) := by
  simp [create_file]

lemma create_file_zero : create_file (0 : Int) = [] := rfl

lemma create_file_sum_eq (n : Nat) : (create_file (n : Int)).sum = (n : Int) := by
  rcases Nat.eq_zero_or_pos n with h | h
  · subst h
    simp [create_file_zero]
  · have hn : (0 : Int) < (n : Int) := by exact_mod_cast h
    have hc : (0 : Int) < min (n : Int) (1024 * 1024) := by omega
    rw [create_file_eq, write_chunks_fuel_sum n _ _ hc (by omega)]
    omega


lemma charVal_decChar : ∀ d, d < 10 → charVal (decChar d) = d := by decide

lemma isDigit_decChar : ∀ d, d < 10 → (decChar d).isDigit = true := by decide

lemma mem_digitsRevFuel_lt :
    ∀ (fuel n d : Nat), d ∈ digitsRevFuel fuel n → d < 10 := by
  intro fuel
  induction fuel with
  | zero => intro n d h; simp [digitsRevFuel] at h
  | succ fuel ih =>
    intro n d h
    by_cases h0 : n = 0
    · simp [digitsRevFuel, h0] at h
    · simp only [digitsRevFuel, if_neg h0, List.mem_cons] at h
      rcases h with h | h
      · omega
      · exact ih _ _ h

lemma mem_padLeft_natDecimalBE_lt {w n d : Nat}
    (h : d ∈ padLeft w (natDecimalBE n)) : d < 10 := by
  rcases List.mem_append.mp h with h | h
  · have := List.eq_of_mem_replicate h
    omega
  · by_cases h0 : n = 0
    · simp [natDecimalBE, h0] at h
      omega
    · simp only [natDecimalBE, if_neg h0, List.mem_reverse] at h
      exact mem_digitsRevFuel_lt n n d h

lemma valBE_append_singleton (l : List Nat) (d : Nat) :
    valBE (l ++ [d]) = valBE l * 10 + d := by
  simp [valBE, List.foldl_append]

lemma valBE_replicate_zero (k : Nat) (l : List Nat) :
    valBE (List.replicate k 0 ++ l) = valBE l := by
  induction k with
  | zero => rfl
  | succ k ih => simpa [valBE, List.replicate_succ] using ih

lemma valBE_reverse_digitsRevFuel :
    ∀ (fuel n : Nat), n ≤ fuel → valBE ((digitsRevFuel fuel n).reverse) = n := by
  intro fuel
  induction fuel with
  | zero =>
    intro n hn
    have : n = 0 := by omega
    subst this
    rfl
  | succ fuel ih =>
    intro n hn
    by_cases h0 : n = 0
    · subst h0; rfl
    · have hdiv : n / 10 < n := Nat.div_lt_self (by omega) (by norm_num)
      simp only [digitsRevFuel, if_neg h0, List.reverse_cons]
      rw [valBE_append_singleton, ih (n / 10) (by omega)]
      omega

lemma valBE_padLeft_natDecimalBE (w n : Nat) :
    valBE (padLeft w (natDecimalBE n)) = n := by
  rw [padLeft, valBE_replicate_zero]
  by_cases h0 : n = 0
  · subst h0; rfl
  · simp only [natDecimalBE, if_neg h0]
    exact valBE_reverse_digitsRevFuel n n le_rfl

lemma map_charVal_map_decChar :
    ∀ (l : List Nat), (∀ d ∈ l, d < 10) → (l.map decChar).map charVal = l := by
  intro l h
  induction l with
  | nil => rfl
  | cons d ds ih =>
    simp only [List.map_cons, List.cons.injEq]
    exact ⟨charVal_decChar d (h d (by simp)), ih fun x hx => h x (by simp [hx])⟩

lemma padNumChars_inj {w a b : Nat} (h : padNumChars w a = padNumChars w b) : a = b := by
  have h2 : padLeft w (natDecimalBE a) = padLeft w (natDecimalBE b) := by
    have ha := map_charVal_map_decChar (padLeft w (natDecimalBE a))
      (fun d hd => mem_padLeft_natDecimalBE_lt hd)
    have hb := map_charVal_map_decChar (padLeft w (natDecimalBE b))
      (fun d hd => mem_padLeft_natDecimalBE_lt hd)
    rw [← ha, ← hb]
    exact congrArg (List.map charVal) h
  have := congrArg valBE h2
  rwa [valBE_padLeft_natDecimalBE, valBE_padLeft_natDecimalBE] at this

lemma isDigit_mem_padNumChars {w n : Nat} {c : Char}
    (h : c ∈ padNumChars w n) : c.isDigit = true := by
  obtain ⟨d, hd, rfl⟩ := List.mem_map.mp h
  exact isDigit_decChar d (mem_padLeft_natDecimalBE_lt hd)

lemma takeWhile_append_cons {α : Type} (p : α → Bool) :
    ∀ (xs : List α) (y : α) (ys : List α), (∀ x ∈ xs, p x = true) → p y = false →
      ((xs ++ y :: ys).takeWhile p = xs ∧ (xs ++ y :: ys).dropWhile p = y :: ys) := by
  intro xs
  induction xs with
  | nil =>
    intro y ys _ hy
    simp [List.takeWhile_cons, List.dropWhile_cons, hy]
  | cons a as ih =>
    intro y ys hx hy
    have ha : p a = true := hx a (by simp)
    have := ih y ys (fun x hx2 => hx x (by simp [hx2])) hy
    simp [List.takeWhile_cons, List.dropWhile_cons, ha, this.1, this.2]


lemma filename_inj_chars {b i b' i' : Nat}
    (hd : filenameChars b i = filenameChars b' i') : b = b' ∧ i = i' := by
  unfold filenameChars at hd
  have hd2 := List.append_cancel_left hd
  have hu : "_file_".toList = '_' :: "file_".toList := rfl
  rw [hu, List.cons_append, List.cons_append] at hd2
  have h4 : ∀ x ∈ padNumChars 4 b, Char.isDigit x = true :=
    fun x hx => isDigit_mem_padNumChars hx
  have h4' : ∀ x ∈ padNumChars 4 b', Char.isDigit x = true :=
    fun x hx => isDigit_mem_padNumChars hx
  have hund : ('_').isDigit = false := by decide
  obtain ⟨ht, hdrop⟩ := takeWhile_append_cons Char.isDigit (padNumChars 4 b) '_'
    ("file_".toList ++ (padNumChars 6 i ++ ".dat".toList)) h4 hund
  obtain ⟨ht', hdrop'⟩ := takeWhile_append_cons Char.isDigit (padNumChars 4 b') '_'
    ("file_".toList ++ (padNumChars 6 i' ++ ".dat".toList)) h4' hund
  have hb : padNumChars 4 b = padNumChars 4 b' := by rw [← ht, ← ht', hd2]
  have htail : '_' :: ("file_".toList ++ (padNumChars 6 i ++ ".dat".toList))
             = '_' :: ("file_".toList ++ (padNumChars 6 i' ++ ".dat".toList)) := by
    rw [← hdrop, ← hdrop', hd2]
  have htail2 : "file_".toList ++ (padNumChars 6 i ++ ".dat".toList)
              = "file_".toList ++ (padNumChars 6 i' ++ ".dat".toList) :=
    List.tail_eq_of_cons_eq htail
  have hd3 := List.append_cancel_left htail2
  have hv : ".dat".toList = '.' :: "dat".toList := rfl
  rw [hv] at hd3
  have h6 : ∀ x ∈ padNumChars 6 i, Char.isDigit x = true :=
    fun x hx => isDigit_mem_padNumChars hx
  have h6' : ∀ x ∈ padNumChars 6 i', Char.isDigit x = true :=
    fun x hx => isDigit_mem_padNumChars hx
  have hdot : ('.').isDigit = false := by decide
  obtain ⟨hti, _⟩ := takeWhile_append_cons Char.isDigit (padNumChars 6 i) '.'
    "dat".toList h6 hdot
  obtain ⟨hti', _⟩ := takeWhile_append_cons Char.isDigit (padNumChars 6 i') '.'
    "dat".toList h6' hdot
  have hi : padNumChars 6 i = padNumChars 6 i' := by rw [← hti, ← hti', hd3]
  exact ⟨padNumChars_inj hb, padNumChars_inj hi⟩


lemma num_files_runStates (f sz : Nat) :
    ∀ n, (runStates f sz n).num_files = f * 2 ^ n := by
  intro n
  induction n with
  | zero => simp [runStates, initState]
  | succ n ih =>
    simp only [runStates, runBatch]
    rw [ih, pow_succ, Nat.mul_assoc]

lemma file_size_runStates (f sz : Nat) :
    ∀ n, (runStates f sz n).file_size = sz * 2 ^ n := by
  intro n
  induction n with
  | zero => simp [runStates, initState]
  | succ n ih =>
    simp only [runStates, runBatch]
    rw [ih, pow_succ, Nat.mul_assoc]

lemma batch_runStates (f sz : Nat) : ∀ n, (runStates f sz n).batch = n := by
  intro n
  induction n with
  | zero => rfl
  | succ n ih =>
    simp only [runStates, runBatch]
    rw [ih]

lemma total_files_runStates (f sz : Nat) :
    ∀ n, (runStates f sz n).total_files = f * (2 ^ n - 1) := by
  intro n
  induction n with
  | zero => simp [runStates, initState]
  | succ n ih =>
    have ha : 1 ≤ 2 ^ n := Nat.one_le_two_pow
    have h2 : 2 ^ (n + 1) - 1 = (2 ^ n - 1) + 2 ^ n := by
      have hs : 2 ^ (n + 1) = 2 ^ n * 2 := pow_succ 2 n
      omega
    simp only [runStates, runBatch]
    rw [ih, num_files_runStates, h2, Nat.mul_add]

lemma sumFilesPerBatch_spec (f sz : Nat) :
    ∀ n, sumFilesPerBatch f sz n = f * (2 ^ n - 1) := by
  intro n
  induction n with
  | zero => rfl
  | succ n ih =>
    have ha : 1 ≤ 2 ^ n := Nat.one_le_two_pow
    have h2 : 2 ^ (n + 1) - 1 = (2 ^ n - 1) + 2 ^ n := by
      have hs : 2 ^ (n + 1) = 2 ^ n * 2 := pow_succ 2 n
      omega
    simp only [sumFilesPerBatch]
    rw [ih, num_files_runStates, h2, Nat.mul_add]

/-! ## Claim theorems -/

/-- C1: the running total size reported after completing each batch should
equal the sum over completed batches of `files_per_batch_i * bytes_per_file_i`
(25600 bytes after two batches with the program's constants
`INITIAL_FILES = 5`, `INITIAL_FILE_SIZE = 1024`).  The code instead reports
`total_size = total_files * file_size` with the current batch's `file_size`
(src/main.py line 72), which after batch 2 is `15 * 2048 = 30720 ≠ 25600`:
the reported number overstates the bytes actually written. -/
theorem reported_total_size_mismatch :
    reportedTotalSize INITIAL_FILES INITIAL_FILE_SIZE 2 = 30720 ∧
    totalWritten INITIAL_FILES INITIAL_FILE_SIZE 2 = 25600 ∧
    reportedTotalSize INITIAL_FILES INITIAL_FILE_SIZE 2 ≠
      totalWritten INITIAL_FILES INITIAL_FILE_SIZE 2 := by
  decide

/-- C2 counterexample: the claim says an unrecoverable error exits with a
non-zero status, but both `except` handlers in `main` return normally and
nothing calls `sys.exit`, so the process exit status is 0 even on a
file-write failure (shown here in the state after one completed batch). -/
theorem error_stop_exit_code_zero :
    (mainStop .ioError "disk full" (runStates 5 1024 1)).2 = 0 := rfl

/-- C2 as amended: when the run stops due to an unrecoverable error the
process prints the error and the statistics accumulated so far (batches
completed and total files created), and exits with status 0 — the same exit
status as a clean interrupt-triggered stop. -/
theorem error_stop_prints_stats_exit_zero (err : String) (s : RunState) :
    StatItem.errorOccurred err ∈ (mainStop .ioError err s).1 ∧
    StatItem.batchesCompleted s.batch ∈ (mainStop .ioError err s).1 ∧
    StatItem.totalFilesCreated s.total_files ∈ (mainStop .ioError err s).1 ∧
    (mainStop .ioError err s).2 = 0 ∧
    (mainStop .interrupted err s).2 = 0 := by
  simp [mainStop]

/-- C3 counterexample: the claim says the final statistics printed on an
interrupt include the number of batches completed, but the
`KeyboardInterrupt` handler prints only "Stopped by user" and the total file
count; no batch count appears (shown here in the state after two completed
batches, where `batch = 2`). -/
theorem interrupt_stats_omit_batches :
    StatItem.batchesCompleted (runStates 5 1024 2).batch ∉
      (mainStop .interrupted "" (runStates 5 1024 2)).1 ∧
    ((mainStop .interrupted "" (runStates 5 1024 2)).1.any isBatchesCompleted) = false := by
  decide

/-- C3 as amended: on an external interrupt the program stops, prints final
cumulative statistics that include the total number of files created (but not
the number of batches completed), and exits cleanly with status 0. -/
theorem interrupt_stop_behaviour (err : String) (s : RunState) :
    StatItem.stoppedByUser ∈ (mainStop .interrupted err s).1 ∧
    StatItem.totalFilesCreated s.total_files ∈ (mainStop .interrupted err s).1 ∧
    ((mainStop .interrupted err s).1.any isBatchesCompleted) = false ∧
    (mainStop .interrupted err s).2 = 0 := by
  simp [mainStop, isBatchesCompleted]

/-- C4: for every batch `N ≥ 1`, at the start of batch `N` (i.e. in the state
after `N - 1` completed batches) the planned file count is
`initial_files * 2 ^ (N - 1)` and the planned per-file size is
`initial_size * 2 ^ (N - 1)`; the arithmetic is exact (`Nat`, as Python's
arbitrary-precision integers — no wrapping). -/
theorem batch_plan_doubling (f sz N : Nat) (_hN : 1 ≤ N) :
    (runStates f sz (N - 1)).num_files = f * 2 ^ (N - 1) ∧
    (runStates f sz (N - 1)).file_size = sz * 2 ^ (N - 1) :=
  ⟨num_files_runStates f sz (N - 1), file_size_runStates f sz (N - 1)⟩

/-- Witness for C4 at batch `N = 3` with the program's constants. -/
theorem batch_plan_doubling_witness :
    1 ≤ 3 ∧
    ((runStates 5 1024 (3 - 1)).num_files = 5 * 2 ^ (3 - 1) ∧
     (runStates 5 1024 (3 - 1)).file_size = 1024 * 2 ^ (3 - 1)) :=
  ⟨by decide, batch_plan_doubling 5 1024 3 (by decide)⟩

/-- C5: after completing batch `N` the running total file count equals the
sum of the per-batch file counts of batches `1..N`, which is
`initial_files * (2 ^ N - 1)`; it is monotonically non-decreasing across
batches, and with `initial_files = 5` it equals 15 after two batches. -/
theorem total_files_after_batches (f sz n : Nat) :
    (runStates f sz n).total_files = sumFilesPerBatch f sz n ∧
    sumFilesPerBatch f sz n = f * (2 ^ n - 1) ∧
    (runStates f sz n).total_files ≤ (runStates f sz (n + 1)).total_files ∧
    (runStates 5 1024 2).total_files = 15 := by
  refine ⟨?_, sumFilesPerBatch_spec f sz n, ?_, by decide⟩
  · rw [total_files_runStates, sumFilesPerBatch_spec]
  · rw [total_files_runStates, total_files_runStates]
    have h1 : (2 : Nat) ^ n - 1 ≤ 2 ^ (n + 1) - 1 := by
      have := Nat.pow_le_pow_right (by norm_num : 1 ≤ 2) (Nat.le_succ n)
      omega
    exact Nat.mul_le_mul_left f h1

/-- C6: `format_size` formats 0 as "0.00 B", 1024 as "1.00 KB", 1024*1024 as
"1.00 MB" and 1536 as "1.50 KB": it repeatedly divides by 1024 and formats
with two decimal places at the unit where the value is below 1024. -/
theorem format_size_values :
    format_size 0 = "0.00 B" ∧
    format_size 1024 = "1.00 KB" ∧
    format_size (1024 * 1024) = "1.00 MB" ∧
    format_size 1536 = "1.50 KB" :=
  ⟨by norm_num [format_size, format_size_go, fmt2]; decide,
   by norm_num [format_size, format_size_go, fmt2]; decide,
   by norm_num [format_size, format_size_go, fmt2]; decide,
   by norm_num [format_size, format_size_go, fmt2]; decide⟩

/-- C7: for every non-negative `size_bytes = n`, `create_file` writes chunks
summing to exactly `n` bytes (the file's on-disk length, since the file is
opened truncating); in particular `n = 0` enters the loop zero times and
yields a zero-length file rather than an error. -/
theorem create_file_exact_size :
    ∀ n : Nat, (create_file (n : Int)).sum = (n : Int) ∧ create_file (0 : Int) = [] :=
  fun n => ⟨create_file_sum_eq n, create_file_zero⟩

/-- C8: for every non-negative `size_bytes = n`, every chunk written by the
loop in `create_file` is positive and at most 1 MiB, the chunk sizes sum to
exactly `n` (so the final chunk exactly consumes the remainder), and the loop
terminates: any fuel of at least `n` iterations yields the same, completed
chunk list. -/
theorem create_file_chunk_loop :
    ∀ n : Nat,
      ((create_file (n : Int)).all fun w => decide (0 < w) && decide (w ≤ 1024 * 1024)) = true ∧
      (create_file (n : Int)).sum = (n : Int) ∧
      ∀ fuel : Nat, n ≤ fuel →
        write_chunks_fuel fuel (min (n : Int) (1024 * 1024)) (n : Int) = create_file (n : Int) := by
  intro n
  refine ⟨?_, create_file_sum_eq n, ?_⟩
  · rcases Nat.eq_zero_or_pos n with h | h
    · subst h; rfl
    · have hn : (0 : Int) < (n : Int) := by exact_mod_cast h
      have hc : (0 : Int) < min (n : Int) (1024 * 1024) := by omega
      rw [create_file_eq, List.all_eq_true]
      intro w hw
      obtain ⟨h1, h2⟩ := write_chunks_fuel_mem n _ _ w hc hw
      have h3 : w ≤ 1024 * 1024 := le_trans h2 (min_le_right _ _)
      simp only [Bool.and_eq_true, decide_eq_true_eq]
      exact ⟨h1, by omega⟩
  · intro fuel hfuel
    rcases Nat.eq_zero_or_pos n with h | h
    · subst h
      simp only [Nat.cast_zero]
      rw [create_file_zero, write_chunks_fuel_nil (le_refl (0 : Int))]
    · have hn : (0 : Int) < (n : Int) := by exact_mod_cast h
      have hc : (0 : Int) < min (n : Int) (1024 * 1024) := by omega
      rw [create_file_eq]
      have h4 : fuel = n + (fuel - n) := by omega
      rw [h4, write_chunks_fuel_stable (fuel - n) n _ _ hc (by omega)]

/-- Witness for C8 at `size_bytes = 3` with fuel 5. -/
theorem create_file_chunk_loop_witness :
    ((create_file ((3 : Nat) : Int)).all fun w => decide (0 < w) && decide (w ≤ 1024 * 1024)) = true ∧
    (create_file ((3 : Nat) : Int)).sum = ((3 : Nat) : Int) ∧
    write_chunks_fuel 5 (min ((3 : Nat) : Int) (1024 * 1024)) ((3 : Nat) : Int) =
      create_file ((3 : Nat) : Int) :=
  ⟨(create_file_chunk_loop 3).1, (create_file_chunk_loop 3).2.1,
   (create_file_chunk_loop 3).2.2 5 (by decide)⟩

/-- C9: the file-naming function `(batch, i) ↦ f"batch_{batch:04d}_file_{i:06d}.dat"`
is deterministic (a function) and injective: two distinct `(batch, index)`
pairs always produce different filenames, so no file of one batch or index is
overwritten by another within the same run. -/
theorem filename_injective :
    ∀ b i b' i' : Nat, filename b i = filename b' i' → b = b' ∧ i = i' :=
  fun _ _ _ _ h => filename_inj_chars (congrArg String.data h)

/-- Witness for C9 at the concrete pair `(7, 42)`. -/
theorem filename_injective_witness : (7 : Nat) = 7 ∧ (42 : Nat) = 42 :=
  filename_injective 7 42 7 42 rfl

/-- C10: called with a negative `size_bytes`, the chunk loop's guard
`remaining > 0` is false at entry, so `create_file` terminates immediately
with no writes — the opened-for-write file is left as an empty (zero-length)
file and no error is raised. -/
theorem create_file_negative_size :
    ∀ s : Int, s < 0 → create_file s = [] ∧ (create_file s).sum = 0 := by
  intro s hs
  have h0 : create_file s = [] := by
    have ht : s.toNat = 0 := by omega
    rw [create_file, ht]
    rfl
  exact ⟨h0, by rw [h0]; rfl⟩

/-- Witness for C10 at `size_bytes = -1`. -/
theorem create_file_negative_size_witness :
    (-1 : Int) < 0 ∧ (create_file (-1 : Int) = [] ∧ (create_file (-1 : Int)).sum = 0) :=
  ⟨by decide, create_file_negative_size (-1) (by decide)⟩

end MassFileMaker
